import Mathlib

/-!
Verification of the data-processing core of the NPS dashboard.

The TypeScript source (`src/lib/npsUtils.ts`, `src/lib/sheetUtils.ts`) is
shallowly embedded here: strings are `List Char`, JavaScript numbers are
modelled by `JSNum` (NaN / ±Infinity / a finite rational), keyed records
(`Record<string, string>`) are association lists with unique keys in
insertion order, and JavaScript objects used as integer-keyed maps are
association lists in insertion order.  All definitions are computable so
that concrete runs of the embedded code can be checked by `decide`.
-/

namespace NpsDash

/-! ### JavaScript string primitives over `List Char` -/

/-- The whitespace characters relevant to the inputs considered here;
models the character class trimmed by JS `String.prototype.trim`. -/
def jsIsSpace (c : Char) : Bool :=
  c = ' ' || c = '\t' || c = '\n' || c = '\r'

/-- JS `String.prototype.trim`: drop leading and trailing whitespace. -/
def trimChars (s : List Char) : List Char :=
  ((s.dropWhile jsIsSpace).reverse.dropWhile jsIsSpace).reverse

/-- JS `String.prototype.toLowerCase`, restricted to ASCII `A`–`Z` and the
Latin-1 uppercase letters (the alphabets appearing in this code base). -/
def jsToLower (c : Char) : Char :=
  if 'A' ≤ c && c ≤ 'Z' then Char.ofNat (c.toNat + 32)
  else if 'À' ≤ c && c ≤ 'Þ' && c ≠ '×' then Char.ofNat (c.toNat + 32)
  else c

/-- JS `toLowerCase` on a whole string. -/
def lowerStr (s : List Char) : List Char := s.map jsToLower

/-- JS `String.prototype.includes`: `needle` occurs contiguously in `hay`. -/
def containsSub (hay needle : List Char) : Bool :=
  hay.tails.any (fun t => needle.isPrefixOf t)

/-- ASCII decimal digit test (JS regex `\d`). -/
def isDigitB (c : Char) : Bool := '0' ≤ c && c ≤ '9'

/-- Numeric value of a run of ASCII digits (JS `parseInt(·, 10)` on digits). -/
def digitsToNat (ds : List Char) : ℕ :=
  ds.foldl (fun a c => 10 * a + (c.toNat - '0'.toNat)) 0

/-! ### JavaScript numbers -/

/-- The values a JS number can take in this code: `NaN`, signed infinity or a
finite value (modelled exactly as a rational, abstracting from binary64). -/
inductive JSNum where
  | nan : JSNum
  | inf : Bool → JSNum
  | fin : ℚ → JSNum
deriving DecidableEq

/-- Exponent part of a float literal: optional sign then at least one digit
(JS `parseFloat` ignores a dangling `e`/`E`). -/
def parseExpDigits (r : List Char) : Option ℤ :=
  match r with
  | '+' :: r2 =>
    if (r2.takeWhile isDigitB).isEmpty then none
    else some ((digitsToNat (r2.takeWhile isDigitB) : ℤ))
  | '-' :: r2 =>
    if (r2.takeWhile isDigitB).isEmpty then none
    else some (-(digitsToNat (r2.takeWhile isDigitB) : ℤ))
  | _ =>
    if (r.takeWhile isDigitB).isEmpty then none
    else some ((digitsToNat (r.takeWhile isDigitB) : ℤ))

/-- The body of `parseFloat` after the optional sign: longest prefix of the form
`Infinity`, `digits[.digits][e|E exp]` or `.digits[e|E exp]`; anything else
is NaN.  Trailing garbage is ignored, as in JS. -/
def jsParseFloatCore (neg : Bool) (s : List Char) : JSNum :=
  if "Infinity".data.isPrefixOf s then .inf neg
  else
    let intDigits := s.takeWhile isDigitB
    let rest1 := s.dropWhile isDigitB
    let fracDigits :=
      match rest1 with
      | '.' :: r => r.takeWhile isDigitB
      | _ => []
    let rest2 :=
      match rest1 with
      | '.' :: r => r.dropWhile isDigitB
      | _ => rest1
    if intDigits.isEmpty && fracDigits.isEmpty then .nan
    else
      let mant : ℚ :=
        if fracDigits.isEmpty then (digitsToNat intDigits : ℚ)
        else (digitsToNat intDigits : ℚ) +
          (digitsToNat fracDigits : ℚ) / ((10 : ℚ) ^ fracDigits.length)
      let value : ℚ :=
        match rest2 with
        | 'e' :: r =>
          (match parseExpDigits r with
           | some e => mant * (10 : ℚ) ^ e
           | none => mant)
        | 'E' :: r =>
          (match parseExpDigits r with
           | some e => mant * (10 : ℚ) ^ e
           | none => mant)
        | _ => mant
      .fin (if neg then -value else value)

/-- JS `parseFloat`: skip leading whitespace, read an optional sign, then the
numeric prefix. -/
def jsParseFloat (s : List Char) : JSNum :=
  match s.dropWhile jsIsSpace with
  | '-' :: r => jsParseFloatCore true r
  | '+' :: r => jsParseFloatCore false r
  | s1 => jsParseFloatCore false s1

/-- JS `Math.round` on a finite number: round half towards `+∞`, that is
`⌊q + 1/2⌋`.  Written with euclidean integer division on the numerator and
denominator so that concrete values compute; `jsRound_eq_floor` proves the
floor characterisation. -/
def jsRound (q : ℚ) : ℤ :=
  (2 * q.num + (q.den : ℤ)) / (2 * (q.den : ℤ))

/-- Rounding agreement: `jsRound` is exactly `⌊q + 1/2⌋`, the semantics of
`Math.round`. -/
theorem jsRound_eq_floor (q : ℚ) : jsRound q = ⌊q + 1/2⌋ := by
  have hden : (0 : ℚ) < (q.den : ℚ) := by
    exact_mod_cast q.den_pos
  have hd : ((q.den : ℚ)) ≠ 0 := ne_of_gt hden
  have hnum : ((q.num : ℚ)) = q * ((q.den : ℚ)) :=
    (div_eq_iff hd).mp (Rat.num_div_den q)
  have hq : q + 1/2 = ((2 * q.num + (q.den : ℤ) : ℤ) : ℚ) / ((2 * q.den : ℕ) : ℚ) := by
    push_cast
    rw [hnum]
    field_simp
    linarith [hnum]
  rw [jsRound, hq, Rat.floor_intCast_div_natCast]
  congr 1

/-! ### npsUtils.ts — categories and the score parser -/

/-- The `enum NPSCategory` of the source. -/
inductive NPSCategory where
  | detrator : NPSCategory
  | neutro : NPSCategory
  | promotor : NPSCategory
deriving DecidableEq

/-- Embeds `getNPSCategory`: round, then classify 0–6 / 7–8 / 9–10; values whose
rounding lands outside 0–10 fall back to `neutro`.  (The `isNaN` guard of the
source cannot fire in this model, where the argument is a finite number.) -/
def getNPSCategory (score : ℚ) : NPSCategory :=
  let roundedScore := jsRound score
  if 0 ≤ roundedScore ∧ roundedScore ≤ 6 then .detrator
  else if 7 ≤ roundedScore ∧ roundedScore ≤ 8 then .neutro
  else if 9 ≤ roundedScore ∧ roundedScore ≤ 10 then .promotor
  else .neutro

/-- The `wordToValue` keyword table of `parseNPSValue`, in object-literal
insertion order — the order `Object.entries` iterates. -/
def wordToValue : List (List Char × ℚ) :=
  [("péssimo".data, 0), ("pessimo".data, 0), ("ruim".data, 2), ("insatisfeito".data, 3),
   ("regular".data, 5), ("médio".data, 5), ("medio".data, 5), ("neutro".data, 7),
   ("bom".data, 8), ("satisfeito".data, 8), ("ótimo".data, 9), ("otimo".data, 9),
   ("excelente".data, 10), ("muito bom".data, 9), ("perfeito".data, 10)]

/-- The keyword fallback loop of `parseNPSValue`: the first table entry (in
iteration order) whose keyword occurs in the lower-cased input wins. -/
def keywordLookup (lowerValue : List Char) : Option ℚ :=
  (wordToValue.find? (fun p => containsSub lowerValue p.1)).map Prod.snd

/-- The numeric-value stage of `parseNPSValue` on the trimmed string:
`parseFloat`, else a leading digit run via `parseInt`, else the keyword
table. -/
def rawNumValue (strValue : List Char) : JSNum :=
  match jsParseFloat strValue with
  | .nan =>
    let lead := strValue.takeWhile isDigitB
    if !lead.isEmpty then .fin ((digitsToNat lead : ℚ))
    else
      match keywordLookup (lowerStr strValue) with
      | some v => .fin v
      | none => .nan
  | x => x

/-- The final validity check of `parseNPSValue`: a non-NaN finite value in
`[0, 10]`. -/
def npsFinalize (numValue : JSNum) : Option ℚ :=
  match numValue with
  | .fin q => if 0 ≤ q ∧ q ≤ 10 then some q else none
  | _ => none

/-- Embeds `parseNPSValue` on a cell string: `some v` iff the source returns
`valid: true` with value `v` (in the source, `value` is non-null exactly when
`valid`). -/
def parseNPSValue (value : List Char) : Option ℚ :=
  if value = [] then none
  else npsFinalize (rawNumValue (trimChars value))

/-- Any valid parse lies in the NPS range `[0, 10]`. -/
theorem parseNPSValue_range {value : List Char} {q : ℚ}
    (h : parseNPSValue value = some q) : 0 ≤ q ∧ q ≤ 10 := by
  unfold parseNPSValue at h
  split at h
  · exact absurd h (by simp)
  · unfold npsFinalize at h
    split at h
    next q' =>
      split at h
      · cases h
        assumption
      · exact absurd h (by simp)
    next => exact absurd h (by simp)

/-! ### Records and column analysis -/

/-- A `Record<string, string>` row: keys to cell text, in insertion order,
keys unique as in a JS object. -/
abbrev Rec : Type := List (List Char × List Char)

/-- JS property read `row[column]` guarded by `row.hasOwnProperty(column)`:
`some` exactly when the property exists. -/
def alookup (row : Rec) (key : List Char) : Option (List Char) :=
  (List.find? (fun p => p.1 = key) row).map Prod.snd

/-- The cells of `column` over all rows that have the property — the values
visited by the `for (const row of data)` loop of `analyzeColumnValues`. -/
def columnCells (data : List Rec) (column : List Char) : List (List Char) :=
  data.filterMap (fun row => alookup row column)

/-- The `values` array accumulated by `analyzeColumnValues`: the valid parses
of the cells of the column, in row order. -/
def columnValidValues (data : List Rec) (column : List Char) : List ℚ :=
  (columnCells data column).filterMap parseNPSValue

/-- Result type of `analyzeColumnValues`. -/
structure ColumnStats where
  validCount : ℕ
  validPercentage : ℚ
  averageValue : ℚ
  hasExpectedRange : Bool
deriving DecidableEq

/-- Embeds `analyzeColumnValues`: per-column statistics.  The loop accumulating
`validCount`, `sum` and `values` is rendered as the `columnValidValues`
list; the booleans and the range test follow the source line by line. -/
def analyzeColumnValues (data : List Rec) (column : List Char) : ColumnStats :=
  let values := columnValidValues data column
  let validCount := values.length
  let sum : ℚ := values.foldl (· + ·) 0
  let validPercentage : ℚ :=
    if 0 < data.length then ((validCount : ℚ) / (data.length : ℚ)) * 100 else 0
  let averageValue : ℚ := if 0 < validCount then sum / (validCount : ℚ) else 0
  let hasLowValues := values.any (fun v => decide (0 ≤ v ∧ v ≤ 3))
  let hasMidValues := values.any (fun v => decide (4 ≤ v ∧ v ≤ 7))
  let hasHighValues := values.any (fun v => decide (8 ≤ v ∧ v ≤ 10))
  let hasExpectedRange :=
    (hasLowValues && hasMidValues) ||
    (hasMidValues && hasHighValues) ||
    (hasLowValues && hasHighValues) ||
    (decide (0 < values.length) && (hasLowValues || hasMidValues || hasHighValues))
  ⟨validCount, validPercentage, averageValue, hasExpectedRange⟩

/-- The `possibleColumnNames` list of `identifyNPSColumns`. -/
def possibleColumnNames : List (List Char) :=
  ["nps".data, "nota".data, "score".data, "avaliação".data, "avaliacao".data,
   "nota nps".data, "pontuação".data, "pontuacao".data,
   "recomendação".data, "recomendacao".data, "indicação".data, "indicacao".data,
   "satisfação".data, "satisfacao".data, "classificação".data, "classificacao".data,
   "rating".data, "rate".data, "nota de 0 a 10".data, "avaliação de 0 a 10".data,
   "qual nota você daria".data, "qual nota voce daria".data, "de 0 a 10".data,
   "escala de 0 a 10".data]

/-- JS `Array.from(new Set(xs))`: deduplicate keeping the first occurrence. -/
def firstDedup (l : List (List Char)) : List (List Char) :=
  l.foldl (fun acc x => if x ∈ acc then acc else acc ++ [x]) []

/-- Result of `identifyNPSColumns`: the identified columns and the
`stats.analyzedColumns` diagnostic list. -/
structure IdentifyResult where
  columns : List (List Char)
  analyzedColumns : List (List Char)
deriving DecidableEq

/-- Embeds `identifyNPSColumns`: walk the headers of the first row, skip `_rowId`,
and admit a column by the three threshold rules (suggestive name ∧ ≥30%,
non-suggestive ∧ ≥50%, suggestive ∧ ≥10%, each also requiring the expected
range); finally deduplicate. -/
def identifyNPSColumns (data : List Rec) : IdentifyResult :=
  match data with
  | [] => ⟨[], []⟩
  | firstRow :: _ =>
    let allColumnHeaders := firstRow.map Prod.fst
    let step := fun (acc : List (List Char) × List (List Char)) (column : List Char) =>
      if column = "_rowId".data then acc
      else
        let analyzed := acc.2 ++ [column]
        let columnLower := lowerStr column
        let stats := analyzeColumnValues data column
        let isNameSuggestive := possibleColumnNames.any (fun name => containsSub columnLower name)
        if isNameSuggestive && decide ((30 : ℚ) ≤ stats.validPercentage) && stats.hasExpectedRange then
          (acc.1 ++ [column], analyzed)
        else if !isNameSuggestive && decide ((50 : ℚ) ≤ stats.validPercentage) && stats.hasExpectedRange then
          (acc.1 ++ [column], analyzed)
        else if isNameSuggestive && decide ((10 : ℚ) ≤ stats.validPercentage) && stats.hasExpectedRange then
          (acc.1 ++ [column], analyzed)
        else (acc.1, analyzed)
    let result := allColumnHeaders.foldl step ([], [])
    ⟨firstDedup result.1, result.2⟩

/-! ### The NPS calculator -/

/-- The `NPSData` summary structure; the two `debug` sub-fields are inlined
as `colunasAnalisadas` and `valoresIgnorados`. -/
structure NPSData where
  score : ℤ
  detratores : ℕ
  neutros : ℕ
  promotores : ℕ
  totalRespostas : ℕ
  percentualDetratores : ℚ
  percentualNeutros : ℚ
  percentualPromotores : ℚ
  respostasPorNota : List (ℤ × ℕ)
  categoriaPorNota : List (ℤ × NPSCategory)
  colunasIdentificadas : List (List Char)
  respostasInvalidas : ℕ
  colunasAnalisadas : List (List Char)
  valoresIgnorados : List (List Char)
deriving DecidableEq

/-- The `emptyNPSData` helper closure of `calculateNPS`: all-zero metrics,
empty maps, `respostasInvalidas = valsIgnored.length`. -/
def emptyNPSData (colsIdentified colsAnalyzed valsIgnored : List (List Char)) : NPSData where
  score := 0
  detratores := 0
  neutros := 0
  promotores := 0
  totalRespostas := 0
  percentualDetratores := 0
  percentualNeutros := 0
  percentualPromotores := 0
  respostasPorNota := []
  categoriaPorNota := []
  colunasIdentificadas := colsIdentified
  respostasInvalidas := valsIgnored.length
  colunasAnalisadas := colsAnalyzed
  valoresIgnorados := valsIgnored

/-- Update of a JS integer-keyed object `m[k] = (m[k] || 0) + 1`: increment
in place when the key exists, append otherwise. -/
def bump (k : ℤ) : List (ℤ × ℕ) → List (ℤ × ℕ)
  | [] => [(k, 1)]
  | (k2, v) :: rest => if k2 = k then (k2, v + 1) :: rest else (k2, v) :: bump k rest

/-- The `respostasPorNota` object after the priming
loop: every grade 0..10 maps to 0. -/
def initHist : List (ℤ × ℕ) := (List.range 11).map (fun i => ((i : ℤ), 0))

/-- The `categoriaPorNota` map for grades 0..10. -/
def initCats : List (ℤ × NPSCategory) :=
  (List.range 11).map (fun i => ((i : ℤ), getNPSCategory (i : ℚ)))

/-- The mutable counters of the scanning loop of `calculateNPS`. -/
structure ScanState where
  detratores : ℕ
  neutros : ℕ
  promotores : ℕ
  totalRespostas : ℕ
  respostasInvalidasCount : ℕ
  respostasPorNota : List (ℤ × ℕ)
  valoresIgnorados : List (List Char)
deriving DecidableEq

/-- Initial scan state of `calculateNPS` (counters zero, histogram primed). -/
def initState : ScanState := ⟨0, 0, 0, 0, 0, initHist, []⟩

/-- The body of the scanning loop of `calculateNPS` for one present cell:
a valid parse counts the response, bumps the bucket of the rounded grade and the
matching category; an invalid non-blank cell counts as invalid and is
recorded once in `valoresIgnorados`. -/
def processCell (st : ScanState) (scoreValue : List Char) : ScanState :=
  match parseNPSValue scoreValue with
  | some score =>
    let st' := { st with
      totalRespostas := st.totalRespostas + 1,
      respostasPorNota := bump (jsRound score) st.respostasPorNota }
    match getNPSCategory score with
    | .detrator => { st' with detratores := st'.detratores + 1 }
    | .neutro => { st' with neutros := st'.neutros + 1 }
    | .promotor => { st' with promotores := st'.promotores + 1 }
  | none =>
    if trimChars scoreValue ≠ [] then
      { st with
        respostasInvalidasCount := st.respostasInvalidasCount + 1,
        valoresIgnorados :=
          if scoreValue ∈ st.valoresIgnorados then st.valoresIgnorados
          else st.valoresIgnorados ++ [scoreValue] }
    else st

/-- The nested `for (const row of data) for (const scoreColumn of ...)` loop
of `calculateNPS`. -/
def scanRows (cols : List (List Char)) (data : List Rec) : ScanState :=
  data.foldl
    (fun st row =>
      cols.foldl
        (fun st c =>
          match alookup row c with
          | some cell => processCell st cell
          | none => st)
        st)
    initState

/-- The tail of `calculateNPS` once the score columns are fixed: scan, then
either the zero summary (no valid response) or the percentage/score math. -/
def finishCalc (data : List Rec) (identifiedScoreColumns colunasAnalisadas : List (List Char)) :
    NPSData :=
  let st := scanRows identifiedScoreColumns data
  if st.totalRespostas = 0 then
    emptyNPSData identifiedScoreColumns colunasAnalisadas st.valoresIgnorados
  else
    let percentualDetratores : ℚ := ((st.detratores : ℚ) / (st.totalRespostas : ℚ)) * 100
    let percentualNeutros : ℚ := ((st.neutros : ℚ) / (st.totalRespostas : ℚ)) * 100
    let percentualPromotores : ℚ := ((st.promotores : ℚ) / (st.totalRespostas : ℚ)) * 100
    { score := jsRound (percentualPromotores - percentualDetratores)
      detratores := st.detratores
      neutros := st.neutros
      promotores := st.promotores
      totalRespostas := st.totalRespostas
      percentualDetratores := percentualDetratores
      percentualNeutros := percentualNeutros
      percentualPromotores := percentualPromotores
      respostasPorNota := st.respostasPorNota
      categoriaPorNota := initCats
      colunasIdentificadas := identifiedScoreColumns
      respostasInvalidas := st.respostasInvalidasCount
      colunasAnalisadas := colunasAnalisadas
      valoresIgnorados := st.valoresIgnorados }

/-- Embeds `calculateNPS`; `npsScoreColumns = []` models both an absent and an
empty optional argument (the source treats them alike): automatic
identification runs, and an empty identification yields the zero summary. -/
def calculateNPS (data : List Rec) (npsScoreColumns : List (List Char)) : NPSData :=
  match data with
  | [] => emptyNPSData [] [] []
  | firstRow :: _ =>
    match npsScoreColumns with
    | [] =>
      let result := identifyNPSColumns data
      if result.columns = [] then emptyNPSData [] result.analyzedColumns []
      else finishCalc data result.columns result.analyzedColumns
    | c :: cs => finishCalc data (c :: cs) (firstRow.map Prod.fst)

/-! ### sheetUtils.ts — tokenizer and table builder -/

/-- JS `text.split(/\r?\n/)`: each `\n`, optionally preceded by `\r`, ends a
line; a lone `\r` stays in its line. -/
def splitLines : List Char → List (List Char)
  | [] => [[]]
  | '\r' :: '\n' :: rest => [] :: splitLines rest
  | '\n' :: rest => [] :: splitLines rest
  | c :: rest =>
    match splitLines rest with
    | [] => [[c]]
    | l :: ls => (c :: l) :: ls

/-- Embeds `detectSeparator`: count `,` `;` and tab on the first non-blank line and
keep, walking the candidates in that order, the one whose count strictly
exceeds the running maximum (initially 0 with `,`). -/
def detectSeparator (csvText : List Char) : Char :=
  if trimChars csvText = [] then ','
  else
    match (splitLines csvText).find? (fun l => !(trimChars l).isEmpty) with
    | none => ','
    | some firstLine =>
      let countComma := firstLine.count ','
      let countSemi := firstLine.count ';'
      let countTab := firstLine.count '\t'
      let acc0 : Char × ℕ := (',', 0)
      let acc1 := if countComma > acc0.2 then (',', countComma) else acc0
      let acc2 := if countSemi > acc1.2 then (';', countSemi) else acc1
      let acc3 := if countTab > acc2.2 then ('\t', countTab) else acc2
      acc3.1

/-- The character scan of `parseCSV` over one line: `""` emits a literal
quote (whether or not inside quotes, as in the source), a lone quote toggles
the in-quotes flag, the separator outside quotes ends the field. -/
def scanLine (separator : Char) : Bool → List Char → List Char → List (List Char)
  | _, currentValue, [] => [currentValue]
  | inQuotes, currentValue, '"' :: '"' :: rest =>
    scanLine separator inQuotes (currentValue ++ ['"']) rest
  | inQuotes, currentValue, '"' :: rest =>
    scanLine separator (!inQuotes) currentValue rest
  | inQuotes, currentValue, c :: rest =>
    if c == separator && !inQuotes then
      currentValue :: scanLine separator inQuotes [] rest
    else
      scanLine separator inQuotes (currentValue ++ [c]) rest

/-- The replace of a full-field quoted pattern with its group: strip one
pair of enclosing quotes when the whole field is quoted. -/
def stripEnclosing (value : List Char) : List Char :=
  if 2 ≤ value.length ∧ value.head? = some '"' ∧ value.getLast? = some '"' then
    (value.drop 1).dropLast
  else value

/-- The global replace of doubled double-quotes by one: collapse doubled
quotes left to right. -/
def collapseQuotes : List Char → List Char
  | [] => []
  | '"' :: '"' :: rest => '"' :: collapseQuotes rest
  | c :: rest => c :: collapseQuotes rest

/-- The per-field cleanup of `parseCSV`: strip enclosing quotes, collapse
doubled quotes, trim. -/
def cleanField (value : List Char) : List Char :=
  trimChars (collapseQuotes (stripEnclosing value))

/-- Embeds `parseCSV`: detect the separator, split into lines, tokenize each
non-blank line and clean its fields, drop rows with no fields. -/
def parseCSV (csvText : List Char) : List (List (List Char)) :=
  if trimChars csvText = [] then []
  else
    let separator := detectSeparator csvText
    let result := (splitLines csvText).map
      (fun line =>
        if trimChars line = [] then ([] : List (List Char))
        else (scanLine separator false [] line).map cleanField)
    result.filter (fun line => !line.isEmpty)

/-- JS object property assignment `obj[key] = v`: overwrite in place when
the key exists, append otherwise. -/
def objSet (obj : Rec) (key v : List Char) : Rec :=
  if obj.any (fun p => p.1 == key) then
    obj.map (fun p => if p.1 == key then (key, v) else p)
  else obj ++ [(key, v)]

/-- Embeds `csvToObjects`: first row as header (blank header cells become
`coluna_<i>`), each later row keyed by the headers (short rows padded with
empty cells, long rows truncated), plus the synthetic `_rowId`. -/
def csvToObjects (csvData : List (List (List Char))) : List Rec :=
  match csvData with
  | [] => []
  | [_] => []
  | headers :: rows =>
    if headers.all (fun h => (trimChars h).isEmpty) then []
    else
      let normalizedHeaders := headers.enum.map
        (fun p =>
          if (trimChars p.2).isEmpty then "coluna_".data ++ (Nat.repr (p.1 + 1)).data
          else trimChars p.2)
      rows.enum.map
        (fun rp =>
          let obj := normalizedHeaders.enum.foldl
            (fun obj hp => objSet obj hp.2 (if hp.1 < rp.2.length then rp.2.getD hp.1 [] else []))
            ([] : Rec)
          objSet obj "_rowId".data ("row_".data ++ (Nat.repr (rp.1 + 1)).data))

/-- Embeds `cleanSheetData`: drop rows all of whose values are blank after
trimming, then trim every value of the kept rows. -/
def cleanSheetData (data : List Rec) : List Rec :=
  (data.filter (fun row => row.any (fun p => !(trimChars p.2).isEmpty))).map
    (fun row => row.map (fun p => (p.1, trimChars p.2)))

/-! ### Basic facts about rounding -/

theorem jsRound_nonneg {v : ℚ} (h : 0 ≤ v) : 0 ≤ jsRound v := by
  rw [jsRound_eq_floor]
  exact Int.le_floor.mpr (by push_cast; linarith)

theorem jsRound_le_ten {v : ℚ} (h : v ≤ 10) : jsRound v ≤ 10 := by
  rw [jsRound_eq_floor]
  have h11 : ⌊v + 1/2⌋ < 11 := Int.floor_lt.mpr (by push_cast; linarith)
  omega

/-! ### C1 — getNPSCategory partitions the rounded range -/

/-- C1: for `0 ≤ v ≤ 10`, `getNPSCategory` rounds first and lands the
rounded value in exactly one of the three categories — `detrator` on 0–6,
`neutro` on 7–8, `promotor` on 9–10, the rounded value itself staying in
`[0, 10]`; and whenever the rounded value falls outside `[0, 10]` the
function returns `neutro`. -/
theorem getNPSCategory_partitions (v : ℚ) :
    (0 ≤ v → v ≤ 10 →
      (0 ≤ jsRound v ∧ jsRound v ≤ 10) ∧
      (getNPSCategory v = .detrator ↔ jsRound v ≤ 6) ∧
      (getNPSCategory v = .neutro ↔ 7 ≤ jsRound v ∧ jsRound v ≤ 8) ∧
      (getNPSCategory v = .promotor ↔ 9 ≤ jsRound v)) ∧
    ((jsRound v < 0 ∨ 10 < jsRound v) → getNPSCategory v = .neutro) := by
  constructor
  · intro h0 h10
    have hb1 : 0 ≤ jsRound v := jsRound_nonneg h0
    have hb2 : jsRound v ≤ 10 := jsRound_le_ten h10
    refine ⟨⟨hb1, hb2⟩, ?_, ?_, ?_⟩ <;>
      · simp only [getNPSCategory]
        split_ifs <;> simp <;> omega
  · intro h
    simp only [getNPSCategory]
    split_ifs <;> first | rfl | omega

/-- C1 witness: at `v = 9` the hypotheses hold and the category is
`promotor`. -/
theorem getNPSCategory_partitions_witness :
    (0 ≤ (9 : ℚ) ∧ (9 : ℚ) ≤ 10) ∧ getNPSCategory 9 = .promotor := by
  have h := (getNPSCategory_partitions 9).1 (by norm_num) (by norm_num)
  exact ⟨⟨by norm_num, by norm_num⟩, h.2.2.2.mpr (by decide)⟩

/-! ### C5 — keyword fallback order -/

/-- C5 counterexample: the claim says `"muito bom"` parses to 9, but the
embedded `parseNPSValue` returns 8 — the keyword `"bom"` precedes
`"muito bom"` in the iteration order of the table and matches first. -/
theorem parseNPSValue_muito_bom_counterexample :
    parseNPSValue "muito bom".data = some 8 ∧ (8 : ℚ) ≠ 9 := by
  constructor
  · decide
  · norm_num

/-- C5 amended: a non-numeric input (direct parse NaN, no leading digits)
resolves by case-insensitive substring matching taking the FIRST matching
keyword in table iteration order (`keywordLookup` is a `find?` over the
table); consequently `"muito bom"` parses to 8 via the earlier contained
keyword `"bom"`, not to 9 — the `"muito bom" → 9` entry is unreachable. -/
theorem parseNPSValue_keyword_order :
    (∀ value : List Char, value ≠ [] →
      jsParseFloat (trimChars value) = .nan →
      (trimChars value).takeWhile isDigitB = [] →
      parseNPSValue value =
        (keywordLookup (lowerStr (trimChars value))).bind (fun v => npsFinalize (.fin v))) ∧
    parseNPSValue "muito bom".data = some 8 := by
  constructor
  · intro value hne hfloat hdig
    unfold parseNPSValue
    rw [if_neg hne]
    unfold rawNumValue
    rw [hfloat, hdig]
    simp only [List.isEmpty_nil, Bool.not_true, Bool.false_eq_true, if_false]
    cases keywordLookup (lowerStr (trimChars value)) <;> simp [npsFinalize]
  · decide

/-- C5 amended witness: the general keyword rule applied at `"muito bom"`. -/
theorem parseNPSValue_keyword_order_witness :
    parseNPSValue "muito bom".data =
      (keywordLookup (lowerStr (trimChars "muito bom".data))).bind
        (fun v => npsFinalize (.fin v)) :=
  parseNPSValue_keyword_order.1 "muito bom".data (by decide) (by decide) (by decide)

/-! ### C6 — the separator-only row in the cleaning pipeline -/

/-- C6 counterexample: on `"a,b\n1,2\n,,\n3,4"` the separator-only row is
NOT dropped by `cleanSheetData` — it survives as a Record whose data cells
are blank but whose synthetic `_rowId` is `"row_2"`, so the cleaned table
has 3 records, not 2. -/
theorem cleanSheetData_keeps_separator_row :
    [("a".data, ([] : List Char)), ("b".data, []), ("_rowId".data, "row_2".data)] ∈
      cleanSheetData (csvToObjects (parseCSV "a,b\n1,2\n,,\n3,4".data)) ∧
    (cleanSheetData (csvToObjects (parseCSV "a,b\n1,2\n,,\n3,4".data))).length ≠ 2 := by
  decide

/-- C6 amended: `cleanSheetData` drops only Records ALL of whose values —
including the synthetic `_rowId` added by `csvToObjects` — are blank after
trimming; since `_rowId` is never blank, the separator-only row of
`"a,b\n1,2\n,,\n3,4"` is retained, and the pipeline yields all three data
Records. -/
theorem pipeline_blank_row_retained :
    cleanSheetData (csvToObjects (parseCSV "a,b\n1,2\n,,\n3,4".data)) =
      [[("a".data, "1".data), ("b".data, "2".data), ("_rowId".data, "row_1".data)],
       [("a".data, []), ("b".data, []), ("_rowId".data, "row_2".data)],
       [("a".data, "3".data), ("b".data, "4".data), ("_rowId".data, "row_3".data)]] := by
  decide

/-! ### C7 — quoted field with embedded separator and escaped quote -/

/-- C7: tokenizing the raw line `"He said ""hi"", cool"` yields a single
field with the literal content `He said "hi", cool` — the escaped quotes
become one literal quote each and the embedded comma does not split the
field. -/
theorem parseCSV_quoted_field :
    parseCSV "\"He said \"\"hi\"\", cool\"".data = [["He said \"hi\", cool".data]] := by
  decide

/-! ### C8 — separator detection -/

/-- Spec-side: the first non-blank line `detectSeparator` inspects (`none`
for blank input). -/
def firstDataLine (csvText : List Char) : Option (List Char) :=
  if trimChars csvText = [] then none
  else (splitLines csvText).find? (fun l => !(trimChars l).isEmpty)

/-- Spec-side: the separator the counts actually select — the earliest
candidate in the order comma, semicolon, tab whose count strictly exceeds
all earlier candidate counts and is not exceeded by a later one. -/
def sepSpec (countComma countSemi countTab : ℕ) : Char :=
  if countTab > countComma ∧ countTab > countSemi then '\t'
  else if countSemi > countComma then ';'
  else ','

/-- C8 counterexample: on `";;\t\t"` semicolon and tab occur equally often
(twice each) and more than comma, yet `detectSeparator` returns `';'`, not
the claimed `','`. -/
theorem detectSeparator_tie_counterexample :
    detectSeparator ";;\t\t".data = ';' ∧
    ";;\t\t".data.count ';' = ";;\t\t".data.count '\t' ∧
    ";;\t\t".data.count ',' < ";;\t\t".data.count ';' ∧
    (';' : Char) ≠ ',' := by
  decide

/-- The candidate-selection fold of `detectSeparator`, in closed form. -/
theorem sepFold_eq (cc cs ct : ℕ) :
    (let acc0 : Char × ℕ := (',', 0)
     let acc1 := if cc > acc0.2 then (',', cc) else acc0
     let acc2 := if cs > acc1.2 then (';', cs) else acc1
     let acc3 := if ct > acc2.2 then ('\t', ct) else acc2
     acc3.1) = sepSpec cc cs ct := by
  have hacc1 : (if cc > (0 : ℕ) then ((',', cc) : Char × ℕ) else (',', 0)) = (',', cc) := by
    split_ifs with h1
    · rfl
    · simp [Nat.le_zero.mp (Nat.not_lt.mp h1)]
  simp only [hacc1, sepSpec]
  by_cases h2 : cs > cc <;> simp only [h2, if_true, if_false] <;>
    by_cases h3 : ct > cs <;> by_cases h4 : ct > cc <;>
      split_ifs <;> simp_all <;> omega

/-- C8 amended: `detectSeparator` inspects only the first non-blank line,
counts literal occurrences of comma, semicolon and tab, and returns the
earliest candidate (in the order comma, semicolon, tab) attaining the
maximum count; comma is returned on empty/blank input and on any tie
involving comma, but a semicolon–tab tie above comma yields semicolon. -/
theorem detectSeparator_first_max (csvText : List Char) :
    detectSeparator csvText =
      match firstDataLine csvText with
      | none => ','
      | some firstLine =>
        sepSpec (firstLine.count ',') (firstLine.count ';') (firstLine.count '\t') := by
  unfold detectSeparator firstDataLine
  split_ifs with h
  · rfl
  · cases hf : (splitLines csvText).find? (fun l => !(trimChars l).isEmpty) with
    | none => rfl
    | some l => exact sepFold_eq (l.count ',') (l.count ';') (l.count '\t')

/-! ### The scanning loop of calculateNPS, flattened -/

/-- The cells visited by the scanning loop, in visiting order: for each row,
the cells of the selected columns present on it. -/
def consideredCells (cols : List (List Char)) (data : List Rec) : List (List Char) :=
  data.flatMap (fun row => cols.filterMap (fun c => alookup row c))

/-- An invalid-but-non-blank cell: counted as `respostasInvalidas` and
recorded among `valoresIgnorados`. -/
def isBadCell (c : List Char) : Bool :=
  (parseNPSValue c).isNone && !(trimChars c).isEmpty

/-- The key list of the primed histogram: the integers 0..10. -/
def histKeys : List ℤ := (List.range 11).map (fun i => (i : ℤ))

theorem inner_foldl_eq (row : Rec) (cols : List (List Char)) (st : ScanState) :
    cols.foldl
      (fun st c =>
        match alookup row c with
        | some cell => processCell st cell
        | none => st)
      st
    = (cols.filterMap (fun c => alookup row c)).foldl processCell st := by
  induction cols generalizing st with
  | nil => rfl
  | cons c cs ih =>
    simp only [List.foldl_cons, List.filterMap_cons]
    cases alookup row c <;> simp [ih]

theorem scanRows_eq_foldl (cols : List (List Char)) (data : List Rec) :
    scanRows cols data = (consideredCells cols data).foldl processCell initState := by
  unfold scanRows consideredCells
  generalize initState = st
  induction data generalizing st with
  | nil => rfl
  | cons row rows ih =>
    simp only [List.foldl_cons, List.flatMap_cons, List.foldl_append]
    rw [inner_foldl_eq, ih]

theorem processCell_sum (st : ScanState) (c : List Char)
    (h : st.detratores + st.neutros + st.promotores = st.totalRespostas) :
    (processCell st c).detratores + (processCell st c).neutros + (processCell st c).promotores
      = (processCell st c).totalRespostas := by
  unfold processCell
  cases parseNPSValue c with
  | none => split_ifs <;> simpa using h
  | some q => rcases hcat : getNPSCategory q <;> simp [hcat] <;> omega

theorem foldl_processCell_sum (cells : List (List Char)) (st : ScanState)
    (h : st.detratores + st.neutros + st.promotores = st.totalRespostas) :
    (cells.foldl processCell st).detratores + (cells.foldl processCell st).neutros
      + (cells.foldl processCell st).promotores = (cells.foldl processCell st).totalRespostas := by
  induction cells generalizing st with
  | nil => simpa using h
  | cons c cs ih => exact ih _ (processCell_sum st c h)

theorem scanRows_sum (cols : List (List Char)) (data : List Rec) :
    (scanRows cols data).detratores + (scanRows cols data).neutros
      + (scanRows cols data).promotores = (scanRows cols data).totalRespostas := by
  rw [scanRows_eq_foldl]
  exact foldl_processCell_sum _ initState rfl

theorem bump_keys {k : ℤ} : ∀ {l : List (ℤ × ℕ)}, k ∈ l.map Prod.fst →
    (bump k l).map Prod.fst = l.map Prod.fst := by
  intro l
  induction l with
  | nil => intro h; simp at h
  | cons p rest ih =>
    intro h
    obtain ⟨k2, v⟩ := p
    simp only [bump]
    split_ifs with he
    · simp [he]
    · simp only [List.map_cons, List.cons.injEq, true_and]
      refine ih ?_
      simp only [List.map_cons, List.mem_cons] at h
      rcases h with h | h
      · exact absurd h.symm he
      · exact h

theorem jsRound_mem_histKeys {q : ℚ} (h0 : 0 ≤ q) (h10 : q ≤ 10) :
    jsRound q ∈ histKeys := by
  have h1 := jsRound_nonneg h0
  have h2 := jsRound_le_ten h10
  interval_cases h : jsRound q
  all_goals decide

theorem processCell_keys (st : ScanState) (c : List Char)
    (h : st.respostasPorNota.map Prod.fst = histKeys) :
    (processCell st c).respostasPorNota.map Prod.fst = histKeys := by
  unfold processCell
  cases hp : parseNPSValue c with
  | none => split_ifs <;> simpa using h
  | some q =>
    have hr := parseNPSValue_range hp
    have hmem : jsRound q ∈ st.respostasPorNota.map Prod.fst := by
      rw [h]
      exact jsRound_mem_histKeys hr.1 hr.2
    rcases hcat : getNPSCategory q <;> simp [hcat] <;> rw [bump_keys hmem] <;> exact h

theorem foldl_processCell_keys (cells : List (List Char)) (st : ScanState)
    (h : st.respostasPorNota.map Prod.fst = histKeys) :
    (cells.foldl processCell st).respostasPorNota.map Prod.fst = histKeys := by
  induction cells generalizing st with
  | nil => simpa using h
  | cons c cs ih => exact ih _ (processCell_keys st c h)

theorem initState_keys : initState.respostasPorNota.map Prod.fst = histKeys := by
  decide

theorem scanRows_keys (cols : List (List Char)) (data : List Rec) :
    (scanRows cols data).respostasPorNota.map Prod.fst = histKeys := by
  rw [scanRows_eq_foldl]
  exact foldl_processCell_keys _ initState initState_keys

theorem processCell_inv_count (st : ScanState) (c : List Char) :
    (processCell st c).respostasInvalidasCount
      = st.respostasInvalidasCount + (if isBadCell c then 1 else 0) := by
  unfold processCell isBadCell
  cases parseNPSValue c with
  | some q => rcases hcat : getNPSCategory q <;> simp [hcat]
  | none =>
    split_ifs with h1 h2 <;> simp_all [List.isEmpty_iff]

theorem processCell_ignored (st : ScanState) (c : List Char) :
    (processCell st c).valoresIgnorados
      = if isBadCell c then
          (if c ∈ st.valoresIgnorados then st.valoresIgnorados else st.valoresIgnorados ++ [c])
        else st.valoresIgnorados := by
  unfold processCell isBadCell
  cases parseNPSValue c with
  | some q => rcases hcat : getNPSCategory q <;> simp [hcat]
  | none =>
    split_ifs with h1 h2 h3 <;> simp_all [List.isEmpty_iff]

theorem foldl_inv_count (cells : List (List Char)) (st : ScanState) :
    (cells.foldl processCell st).respostasInvalidasCount
      = st.respostasInvalidasCount + (cells.filter isBadCell).length := by
  induction cells generalizing st with
  | nil => simp
  | cons c cs ih =>
    simp only [List.foldl_cons, List.filter_cons]
    rw [ih, processCell_inv_count]
    split_ifs <;> simp_arith

theorem foldl_ignored (cells : List (List Char)) (st : ScanState) :
    (cells.foldl processCell st).valoresIgnorados
      = (cells.filter isBadCell).foldl
          (fun acc x => if x ∈ acc then acc else acc ++ [x]) st.valoresIgnorados := by
  induction cells generalizing st with
  | nil => simp
  | cons c cs ih =>
    simp only [List.foldl_cons, List.filter_cons]
    rw [ih, processCell_ignored]
    split_ifs with hb hm
    · simp [List.foldl_cons, hm]
    · simp [List.foldl_cons, hm]
    · rfl

theorem scanRows_inv_count (cols : List (List Char)) (data : List Rec) :
    (scanRows cols data).respostasInvalidasCount
      = ((consideredCells cols data).filter isBadCell).length := by
  rw [scanRows_eq_foldl, foldl_inv_count]
  simp [initState]

theorem scanRows_ignored (cols : List (List Char)) (data : List Rec) :
    (scanRows cols data).valoresIgnorados
      = firstDedup ((consideredCells cols data).filter isBadCell) := by
  rw [scanRows_eq_foldl, foldl_ignored]
  rfl

/-! ### C2 — percentages sum to 100 -/

theorem finishCalc_percent (data : List Rec) (cols analyzed : List (List Char)) :
    ((finishCalc data cols analyzed).totalRespostas ≠ 0 →
      (finishCalc data cols analyzed).percentualDetratores
        + (finishCalc data cols analyzed).percentualNeutros
        + (finishCalc data cols analyzed).percentualPromotores = 100) ∧
    ((finishCalc data cols analyzed).totalRespostas = 0 →
      (finishCalc data cols analyzed).percentualDetratores = 0 ∧
      (finishCalc data cols analyzed).percentualNeutros = 0 ∧
      (finishCalc data cols analyzed).percentualPromotores = 0) := by
  simp only [finishCalc]
  split_ifs with h
  · simp [emptyNPSData]
  · dsimp only
    constructor
    · intro _
      have hsum := scanRows_sum cols data
      have ht : (((scanRows cols data).totalRespostas : ℚ)) ≠ 0 := Nat.cast_ne_zero.mpr h
      have hc : ((scanRows cols data).detratores : ℚ) + ((scanRows cols data).neutros : ℚ)
          + ((scanRows cols data).promotores : ℚ)
          = ((scanRows cols data).totalRespostas : ℚ) := by
        exact_mod_cast hsum
      field_simp
      linarith
    · intro htot
      exact absurd htot h

/-- C2: in every outcome of `calculateNPS`, the three percentages sum to 100
whenever `totalRespostas ≠ 0` (exactly, in the rational model), and all
three are 0 whenever `totalRespostas = 0`. -/
theorem calculateNPS_percent_sum (data : List Rec) (cols : List (List Char)) :
    ((calculateNPS data cols).totalRespostas ≠ 0 →
      (calculateNPS data cols).percentualDetratores
        + (calculateNPS data cols).percentualNeutros
        + (calculateNPS data cols).percentualPromotores = 100) ∧
    ((calculateNPS data cols).totalRespostas = 0 →
      (calculateNPS data cols).percentualDetratores = 0 ∧
      (calculateNPS data cols).percentualNeutros = 0 ∧
      (calculateNPS data cols).percentualPromotores = 0) := by
  cases data with
  | nil => simp [calculateNPS, emptyNPSData]
  | cons r rs =>
    cases cols with
    | nil =>
      simp only [calculateNPS]
      split_ifs with h
      · simp [emptyNPSData]
      · exact finishCalc_percent _ _ _
    | cons c cs => exact finishCalc_percent _ _ _

/-- C2 witness: two valid responses, a 9 and a 0; the percentages of the
computed summary sum to 100. -/
theorem calculateNPS_percent_sum_witness :
    (calculateNPS [[("s".data, "9".data)], [("s".data, "0".data)]] ["s".data]).totalRespostas ≠ 0 ∧
    (calculateNPS [[("s".data, "9".data)], [("s".data, "0".data)]] ["s".data]).percentualDetratores
      + (calculateNPS [[("s".data, "9".data)], [("s".data, "0".data)]] ["s".data]).percentualNeutros
      + (calculateNPS [[("s".data, "9".data)], [("s".data, "0".data)]] ["s".data]).percentualPromotores
      = 100 :=
  ⟨by decide,
   (calculateNPS_percent_sum [[("s".data, "9".data)], [("s".data, "0".data)]] ["s".data]).1
     (by decide)⟩

/-! ### C3 — the histogram keys -/

theorem finishCalc_histogram (data : List Rec) (cols analyzed : List (List Char)) :
    ((finishCalc data cols analyzed).totalRespostas ≠ 0 →
      (finishCalc data cols analyzed).respostasPorNota.map Prod.fst = histKeys) ∧
    ((finishCalc data cols analyzed).totalRespostas = 0 →
      (finishCalc data cols analyzed).respostasPorNota = []) := by
  simp only [finishCalc]
  split_ifs with h
  · simp [emptyNPSData]
  · dsimp only
    exact ⟨fun _ => scanRows_keys cols data, fun htot => absurd htot h⟩

/-- C3 counterexample: on empty input `calculateNPS` returns the histogram
`{}` — it has no keys at all, contradicting the claim that all inputs
(including those with `totalRespostas = 0`) produce keys 0..10. -/
theorem calculateNPS_empty_histogram_counterexample :
    (calculateNPS [] []).totalRespostas = 0 ∧
    (calculateNPS [] []).respostasPorNota.map Prod.fst = [] ∧
    ([] : List ℤ) ≠ histKeys := by
  refine ⟨rfl, rfl, ?_⟩
  decide

/-- C3 amended: whenever `totalRespostas ≠ 0` the histogram keys are
exactly the integers 0..10 in order (every key present even with count 0);
in every `totalRespostas = 0` outcome the histogram is the empty map. -/
theorem calculateNPS_histogram_keys (data : List Rec) (cols : List (List Char)) :
    ((calculateNPS data cols).totalRespostas ≠ 0 →
      (calculateNPS data cols).respostasPorNota.map Prod.fst = histKeys) ∧
    ((calculateNPS data cols).totalRespostas = 0 →
      (calculateNPS data cols).respostasPorNota = []) := by
  cases data with
  | nil => simp [calculateNPS, emptyNPSData]
  | cons r rs =>
    cases cols with
    | nil =>
      simp only [calculateNPS]
      split_ifs with h
      · simp [emptyNPSData]
      · exact finishCalc_histogram _ _ _
    | cons c cs => exact finishCalc_histogram _ _ _

/-- C3 amended witness: a run with two valid responses has histogram keys
exactly 0..10. -/
theorem calculateNPS_histogram_keys_witness :
    (calculateNPS [[("s".data, "9".data)], [("s".data, "0".data)]] ["s".data]).totalRespostas ≠ 0 ∧
    (calculateNPS [[("s".data, "9".data)], [("s".data, "0".data)]]
        ["s".data]).respostasPorNota.map Prod.fst = histKeys :=
  ⟨by decide,
   (calculateNPS_histogram_keys [[("s".data, "9".data)], [("s".data, "0".data)]] ["s".data]).1
     (by decide)⟩

/-! ### C4 — the invalid-cell counter -/

/-- The score columns `calculateNPS` actually scans: the explicit ones when
given, otherwise the automatically identified ones (none for empty data). -/
def usedColumns (data : List Rec) (cols : List (List Char)) : List (List Char) :=
  match data with
  | [] => []
  | _ :: _ =>
    match cols with
    | [] => (identifyNPSColumns data).columns
    | c :: cs => c :: cs

theorem consideredCells_nil (data : List Rec) : consideredCells [] data = [] := by
  simp [consideredCells]

theorem finishCalc_invalid (data : List Rec) (cols analyzed : List (List Char)) :
    ((finishCalc data cols analyzed).totalRespostas ≠ 0 →
      (finishCalc data cols analyzed).respostasInvalidas
        = ((consideredCells cols data).filter isBadCell).length) ∧
    ((finishCalc data cols analyzed).totalRespostas = 0 →
      (finishCalc data cols analyzed).respostasInvalidas
        = (firstDedup ((consideredCells cols data).filter isBadCell)).length) := by
  simp only [finishCalc]
  split_ifs with h
  · constructor
    · intro htot
      exact absurd rfl htot
    · intro _
      show (scanRows cols data).valoresIgnorados.length = _
      rw [scanRows_ignored]
  · dsimp only
    exact ⟨fun _ => scanRows_inv_count cols data, fun htot => absurd htot h⟩

/-- C4 counterexample: two rows both holding the same invalid cell `"abc"`
in an explicitly selected column give `totalRespostas = 0`, two failing
non-blank cells, yet `respostasInvalidas = 1` — in the zero outcome the
counter is the length of the deduplicated ignored-values list, not the
occurrence count. -/
theorem calculateNPS_invalid_dedup_counterexample :
    (calculateNPS [[("score".data, "abc".data)], [("score".data, "abc".data)]]
        ["score".data]).totalRespostas = 0 ∧
    ((consideredCells ["score".data]
        [[("score".data, "abc".data)], [("score".data, "abc".data)]]).filter isBadCell).length
      = 2 ∧
    (calculateNPS [[("score".data, "abc".data)], [("score".data, "abc".data)]]
        ["score".data]).respostasInvalidas = 1 ∧
    (1 : ℕ) ≠ 2 := by
  refine ⟨by decide, by decide, by decide, by decide⟩

/-- C4 amended: when `totalRespostas ≠ 0`, `respostasInvalidas` counts every
non-empty, non-blank cell of the considered columns that failed parsing,
with multiplicity; but in the `totalRespostas = 0` outcome it equals the
number of DISTINCT failing raw strings (the deduplicated ignored-values
list length). -/
theorem calculateNPS_invalid_count (data : List Rec) (cols : List (List Char)) :
    ((calculateNPS data cols).totalRespostas ≠ 0 →
      (calculateNPS data cols).respostasInvalidas
        = ((consideredCells (usedColumns data cols) data).filter isBadCell).length) ∧
    ((calculateNPS data cols).totalRespostas = 0 →
      (calculateNPS data cols).respostasInvalidas
        = (firstDedup ((consideredCells (usedColumns data cols) data).filter isBadCell)).length) := by
  cases data with
  | nil => simp [calculateNPS, emptyNPSData, usedColumns, consideredCells, firstDedup]
  | cons r rs =>
    cases cols with
    | nil =>
      simp only [calculateNPS, usedColumns]
      split_ifs with h
      · rw [h, consideredCells_nil]
        simp [emptyNPSData, firstDedup]
      · exact finishCalc_invalid _ _ _
    | cons c cs => exact finishCalc_invalid _ _ _

/-- C4 amended witness: one valid cell and one failing cell; with
`totalRespostas ≠ 0` the counter equals the multiplicity count. -/
theorem calculateNPS_invalid_count_witness :
    (calculateNPS [[("s".data, "9".data)], [("s".data, "abc".data)]]
        ["s".data]).totalRespostas ≠ 0 ∧
    (calculateNPS [[("s".data, "9".data)], [("s".data, "abc".data)]] ["s".data]).respostasInvalidas
      = ((consideredCells
            (usedColumns [[("s".data, "9".data)], [("s".data, "abc".data)]] ["s".data])
            [[("s".data, "9".data)], [("s".data, "abc".data)]]).filter isBadCell).length :=
  ⟨by decide,
   (calculateNPS_invalid_count [[("s".data, "9".data)], [("s".data, "abc".data)]] ["s".data]).1
     (by decide)⟩

/-! ### C9 — no identifiable columns degrades to the zero summary -/

/-- C9: `calculateNPS` is a total function (the embedding returns, never
raises); when automatic identification returns no columns it returns the
all-zero summary with an empty `colunasIdentificadas`, zero
`respostasInvalidas`, `totalRespostas = 0`, and only the diagnostic
`colunasAnalisadas` filled in — so `totalRespostas = 0` is the only failure
signal a caller can observe. -/
theorem calculateNPS_no_columns (data : List Rec)
    (h : (identifyNPSColumns data).columns = []) :
    calculateNPS data [] = emptyNPSData [] (identifyNPSColumns data).analyzedColumns [] ∧
    (calculateNPS data []).totalRespostas = 0 ∧
    (calculateNPS data []).colunasIdentificadas = [] ∧
    (calculateNPS data []).respostasInvalidas = 0 ∧
    (calculateNPS data []).score = 0 := by
  have heq : calculateNPS data []
      = emptyNPSData [] (identifyNPSColumns data).analyzedColumns [] := by
    cases data with
    | nil => rfl
    | cons r rs =>
      simp only [calculateNPS]
      rw [if_pos h]
  refine ⟨heq, ?_, ?_, ?_, ?_⟩ <;> rw [heq] <;> rfl

/-- C9 witness: a single record whose only column has a non-suggestive name
and an unparseable value is identified as no NPS column, and the calculator
returns the zero summary. -/
theorem calculateNPS_no_columns_witness :
    calculateNPS [[("name".data, "hello".data)]] []
      = emptyNPSData [] (identifyNPSColumns [[("name".data, "hello".data)]]).analyzedColumns [] ∧
    (calculateNPS [[("name".data, "hello".data)]] []).totalRespostas = 0 ∧
    (calculateNPS [[("name".data, "hello".data)]] []).colunasIdentificadas = [] ∧
    (calculateNPS [[("name".data, "hello".data)]] []).respostasInvalidas = 0 ∧
    (calculateNPS [[("name".data, "hello".data)]] []).score = 0 :=
  calculateNPS_no_columns [[("name".data, "hello".data)]] (by
    have hp : parseNPSValue ['h', 'e', 'l', 'l', 'o'] = none := by decide
    have hstats : analyzeColumnValues [[("name".data, "hello".data)]] ['n', 'a', 'm', 'e']
        = ⟨0, 0, 0, false⟩ := by
      simp +decide [analyzeColumnValues, columnValidValues, columnCells, alookup, hp]
    simp +decide [identifyNPSColumns, hstats, firstDedup])

/-! ### C10 — hasExpectedRange characterised -/

/-- The union of the three sub-ranges `analyzeColumnValues` looks for:
low 0–3, mid 4–7, high 8–10. -/
def inNPSBand (v : ℚ) : Prop := (0 ≤ v ∧ v ≤ 3) ∨ (4 ≤ v ∧ v ≤ 7) ∨ (8 ≤ v ∧ v ≤ 10)

theorem columnValidValues_range {data : List Rec} {column : List Char} {v : ℚ}
    (hv : v ∈ columnValidValues data column) : 0 ≤ v ∧ v ≤ 10 := by
  simp only [columnValidValues, List.mem_filterMap] at hv
  obtain ⟨c, _, hc⟩ := hv
  exact parseNPSValue_range hc

/-- C10: `hasExpectedRange` holds iff some valid parsed value of the column
lies in `[0,3] ∪ [4,7] ∪ [8,10]` — the two-sub-ranges disjuncts are
subsumed by the lenient fallback; and when every valid value is an integer,
`hasExpectedRange` is equivalent to `validCount > 0` (a non-integer value
in a gap, alone, establishes neither). -/
theorem analyzeColumnValues_range_iff (data : List Rec) (column : List Char) :
    ((analyzeColumnValues data column).hasExpectedRange = true ↔
      ∃ v ∈ columnValidValues data column, inNPSBand v) ∧
    ((∀ v ∈ columnValidValues data column, ∃ n : ℤ, v = (n : ℚ)) →
      ((analyzeColumnValues data column).hasExpectedRange = true ↔
        0 < (analyzeColumnValues data column).validCount)) := by
  have hcount : (analyzeColumnValues data column).validCount
      = (columnValidValues data column).length := rfl
  have hMain : (analyzeColumnValues data column).hasExpectedRange = true ↔
      ∃ v ∈ columnValidValues data column, inNPSBand v := by
    simp only [analyzeColumnValues]
    constructor
    · intro h
      simp only [Bool.or_eq_true, Bool.and_eq_true, List.any_eq_true,
        decide_eq_true_eq] at h
      rcases h with ((⟨⟨v, hv, h1⟩, -⟩ | ⟨⟨v, hv, h1⟩, -⟩) | ⟨⟨v, hv, h1⟩, -⟩)
        | ⟨-, (⟨v, hv, h1⟩ | ⟨v, hv, h1⟩) | ⟨v, hv, h1⟩⟩
      · exact ⟨v, hv, Or.inl h1⟩
      · exact ⟨v, hv, Or.inr (Or.inl h1)⟩
      · exact ⟨v, hv, Or.inl h1⟩
      · exact ⟨v, hv, Or.inl h1⟩
      · exact ⟨v, hv, Or.inr (Or.inl h1)⟩
      · exact ⟨v, hv, Or.inr (Or.inr h1)⟩
    · rintro ⟨v, hv, hband⟩
      simp only [Bool.or_eq_true, Bool.and_eq_true, List.any_eq_true,
        decide_eq_true_eq]
      have hlen : 0 < (columnValidValues data column).length :=
        List.length_pos.mpr (List.ne_nil_of_mem hv)
      refine Or.inr ⟨hlen, ?_⟩
      rcases hband with h1 | h1 | h1
      · exact Or.inl (Or.inl ⟨v, hv, h1⟩)
      · exact Or.inl (Or.inr ⟨v, hv, h1⟩)
      · exact Or.inr ⟨v, hv, h1⟩
  refine ⟨hMain, fun hint => ?_⟩
  rw [hMain, hcount]
  constructor
  · rintro ⟨v, hv, _⟩
    exact List.length_pos.mpr (List.ne_nil_of_mem hv)
  · intro hpos
    obtain ⟨v, hv⟩ := List.exists_mem_of_length_pos hpos
    have hr := columnValidValues_range hv
    obtain ⟨n, hn⟩ := hint v hv
    subst hn
    have h0 : (0 : ℤ) ≤ n := by exact_mod_cast hr.1
    have h10 : n ≤ 10 := by exact_mod_cast hr.2
    refine ⟨(n : ℚ), hv, ?_⟩
    unfold inNPSBand
    interval_cases n <;> norm_num

/-- C10 witness: a column holding the single integer value 7 — every valid
value is an integer, and `hasExpectedRange` is equivalent to
`validCount > 0`. -/
theorem analyzeColumnValues_range_iff_witness :
    (analyzeColumnValues [[("c".data, "7".data)]] "c".data).hasExpectedRange = true ↔
      0 < (analyzeColumnValues [[("c".data, "7".data)]] "c".data).validCount :=
  (analyzeColumnValues_range_iff [[("c".data, "7".data)]] "c".data).2 (by
    intro v hv
    rw [show columnValidValues [[("c".data, "7".data)]] "c".data = [((7 : ℕ) : ℚ)] from by decide]
      at hv
    simp only [List.mem_singleton] at hv
    exact ⟨7, by rw [hv]; norm_num⟩)

end NpsDash
